import Mathlib

/-!
Verification of the `security-reporter` validation engine against its
natural-language specification.

The TypeScript sources are shallowly embedded: pure computations become Lean
functions, filesystem access becomes an explicit inductive filesystem model,
process interaction becomes a fold over an explicit event trace, and code that
can throw returns `Except`.  Each definition is translated from the named
source function; line references point into the repository sources.
-/

namespace SecurityReporter

/-- `CheckStatus` from `src/interfaces/Types.d.ts`: `pass | warn | fail | skip`. -/
inductive CheckStatus where
  | pass
  | warn
  | fail
  | skip
deriving DecidableEq, Repr

/-- `Severity` from `src/interfaces/Types.d.ts`: `info | warning | error | critical`. -/
inductive Severity where
  | info
  | warning
  | error
  | critical
deriving DecidableEq, Repr

/-- A secret-scan match record, as pushed by `scanFile`
(`src/core/checks/security.ts:609-615`).  File paths are modelled as lists of
path components (`path.join dir name` becomes `dir ++ [name]`; `readdir`
entry names contain no separators or `..`, so `path.resolve` is the
identity on these component lists). -/
structure SecretMatch where
  file : List String
  type : String
  line : Nat
  snippet : String
  isDefinition : Bool
deriving DecidableEq, Repr

/-- The `details: any` payload of a `CheckResult`, restricted to the shapes the
embedded checks actually produce.  The source field `matches` is rendered as
`matchList` (`matches` is reserved in Lean). -/
inductive Details where
  | empty
  | secretsFound (matchList : List SecretMatch) (possibleDefinitions : List SecretMatch)
      (totalMatches : Nat) (totalDefinitions : Nat)
  | secretsDefs (possibleDefinitions : List SecretMatch) (total : Nat)
  | scanStats (filesScanned : Nat) (patternsChecked : Nat)
  | envIssues (issues : List String) (hasEnv : Bool) (hasGitignore : Bool)
      (warnings : List String)
  | envWarnings (warnings : List String) (hasEnv : Bool) (hasEnvExample : Bool)
  | envOk (hasEnv : Bool) (hasEnvExample : Bool) (hasGitignore : Bool)
  | text (s : String)
deriving DecidableEq, Repr

/-- `CheckResult` from `src/interfaces/Types.d.ts`. -/
structure CheckResult where
  name : String
  status : CheckStatus
  severity : Severity
  message : String
  details : Details := Details.empty
  suggestions : List String := []
deriving DecidableEq, Repr

/-- The `summary` object of a `ValidationReport`. -/
structure Summary where
  total : Nat
  passed : Nat
  warnings : Nat
  failed : Nat
  skipped : Nat
deriving DecidableEq, Repr

/-- `ValidationReport` from `src/interfaces/Types.d.ts`.  The `timestamp` and
`executionTime` fields are wall-clock readings outside the embedding and are
omitted. -/
structure ValidationReport where
  projectType : String
  overallStatus : CheckStatus
  summary : Summary
  checks : List CheckResult
deriving DecidableEq, Repr

/-- `calculateSummary` (`src/core/validators.ts:70-78`). -/
def calculateSummary (checks : List CheckResult) : Summary :=
  { total := checks.length
    passed := (checks.filter (fun c => c.status == CheckStatus.pass)).length
    warnings := (checks.filter (fun c => c.status == CheckStatus.warn)).length
    failed := (checks.filter (fun c => c.status == CheckStatus.fail)).length
    skipped := (checks.filter (fun c => c.status == CheckStatus.skip)).length }

/-- `determineOverallStatus` (`src/core/validators.ts:83-88`). -/
def determineOverallStatus (checks : List CheckResult) : CheckStatus :=
  if checks.any (fun c => c.status == CheckStatus.fail) then CheckStatus.fail
  else if checks.any (fun c => c.status == CheckStatus.warn) then CheckStatus.warn
  else if checks.all (fun c => c.status == CheckStatus.skip) then CheckStatus.skip
  else CheckStatus.pass

/-- `Promise.all` over already-started check computations: the first rejection
in declaration order propagates, otherwise the list of fulfilled values is
returned in declaration order. -/
def promiseAll {α : Type} : List (Except String α) → Except String (List α)
  | [] => Except.ok []
  | x :: xs =>
    match x with
    | Except.error e => Except.error e
    | Except.ok v =>
      match promiseAll xs with
      | Except.error e => Except.error e
      | Except.ok vs => Except.ok (v :: vs)

/-- `runValidation` (`src/core/validators.ts:10-41`), parametrised by the list
of already-declared check computations (the code builds this list from the
four check groups, each of which is a `Promise.all` of individual checks; a
check that throws is a rejected element).  Lines 25-40: combine the results,
derive the summary and overall status, and build the report. -/
def runValidation (projectType : String) (checks : List (Except String CheckResult)) :
    Except String ValidationReport :=
  match promiseAll checks with
  | Except.error e => Except.error e
  | Except.ok allChecks =>
    Except.ok
      { projectType := projectType
        overallStatus := determineOverallStatus allChecks
        summary := calculateSummary allChecks
        checks := allChecks }

/-! ### String helpers

JavaScript string operations used by the checks, modelled over `List Char`
(ASCII subset; none of the embedded inputs uses non-ASCII whitespace). -/

/-- `haystack.includes(needle)`. -/
def containsSub (pat : List Char) : List Char → Bool
  | [] => pat.isEmpty
  | c :: rest => pat.isPrefixOf (c :: rest) || containsSub pat rest

/-- `s.includes(pat)` on `String`. -/
def strIncludes (s pat : String) : Bool :=
  containsSub pat.data s.data

/-- `s.startsWith(p)`. -/
def strStartsWith (s p : String) : Bool :=
  p.data.isPrefixOf s.data

/-- `s.endsWith(p)`. -/
def strEndsWith (s p : String) : Bool :=
  p.data.isSuffixOf s.data

/-- `s.toLowerCase()` (ASCII). -/
def strToLower (s : String) : String :=
  ⟨s.data.map Char.toLower⟩

/-- JavaScript regex `\w`: `[A-Za-z0-9_]`. -/
def isWordChar (c : Char) : Bool :=
  c.isAlphanum || c == '_'

/-- `s.trim()` (ASCII whitespace). -/
def jsTrim (s : String) : String :=
  ⟨(s.data.dropWhile Char.isWhitespace).reverse.dropWhile Char.isWhitespace |>.reverse⟩

/-- The `\.env\b` alternative of the regex `/\.env\*|\.env\b/`
(`src/core/checks/security.ts:675`): some occurrence of `.env` is followed by
a non-word character or the end of the string. -/
def envBoundary : List Char → Bool
  | [] => false
  | c :: rest =>
    (if [ '.', 'e', 'n', 'v' ].isPrefixOf (c :: rest) then
      match (c :: rest).drop 4 with
      | [] => true
      | d :: _ => !isWordChar d
     else false) || envBoundary rest

/-! ### checkEnvFiles (claim C1)

`checkEnvFiles` (`src/core/checks/security.ts:649-725`) is the one check in
`runSecurityChecks` with no `try`/`catch`: the `fs.readFileSync` of
`.gitignore` at line 660 can throw (e.g. `EACCES` when the file exists but is
unreadable), and nothing converts that into a `CheckResult`. -/

/-- The filesystem facts `checkEnvFiles` consults: the three `existsSync`
probes (lines 652-654) and the result of `readFileSync(".gitignore")`
(line 660), where `none` models a read that throws even though `existsSync`
reported the file present. -/
structure EnvFsState where
  hasEnv : Bool
  hasEnvExample : Bool
  hasGitignore : Bool
  gitignoreContent : Option String
deriving DecidableEq, Repr

/-- `checkEnvFiles` (`src/core/checks/security.ts:649-725`).  Translated
line by line; the `.gitignore` read has no surrounding `try`/`catch`, so a
failing read propagates as `Except.error`. -/
def checkEnvFiles (st : EnvFsState) : Except String CheckResult := do
  let issues ←
    if st.hasEnv && st.hasGitignore then
      match st.gitignoreContent with
      | none => Except.error "EACCES: permission denied, open .gitignore"
      | some gitignore =>
        let patterns := [".env", "/.env", ".env\n", ".env\r\n", "\n.env", "\r\n.env"]
        let hasEnvPattern := patterns.any (fun p => strIncludes gitignore p)
        let hasEnvWildcard := strIncludes gitignore ".env*" || envBoundary gitignore.data
        if !hasEnvPattern && !hasEnvWildcard then
          Except.ok [".env file not in .gitignore"]
        else
          Except.ok []
    else
      Except.ok []
  let warnings :=
    if st.hasEnv && !st.hasEnvExample then ["Missing .env.example file for documentation"]
    else []
  if !st.hasEnv && !st.hasGitignore then
    Except.ok
      { name := "env files", status := CheckStatus.pass, severity := Severity.info
        message := "No .env files found (project may not need them)" }
  else if issues.length > 0 then
    Except.ok
      { name := "env files", status := CheckStatus.fail, severity := Severity.critical
        message := "Environment file security issues detected"
        details := Details.envIssues issues st.hasEnv st.hasGitignore warnings
        suggestions :=
          ["Add .env to .gitignore to prevent committing secrets",
           "Run: echo \x27.env\x27 >> .gitignore"] }
  else if warnings.length > 0 then
    Except.ok
      { name := "env files", status := CheckStatus.warn, severity := Severity.warning
        message := "Environment file improvements recommended"
        details := Details.envWarnings warnings st.hasEnv st.hasEnvExample
        suggestions := warnings.map (fun w => "Fix: " ++ w) }
  else
    Except.ok
      { name := "env files", status := CheckStatus.pass, severity := Severity.info
        message := "Environment files properly configured"
        details := Details.envOk st.hasEnv st.hasEnvExample st.hasGitignore }

/-! ### Filesystem model

Paths are lists of components; `path.join dir name` is `dir ++ [name]` and,
because `readdir` entry names never contain separators or `..`,
`path.resolve` is the identity on every path the traversals construct, and
`p.startsWith(root)` on resolved paths is `root.isPrefixOf p`. -/

/-- A node of the scanned filesystem tree.  `file` carries the `statSync`
size and the line list produced by `content.split(/\r?\n/)`;
`fileUnreadable` is a file whose `statSync`/`readFileSync` throws;
`dirUnreadable` is a directory whose `readdirSync`/`readdir` throws (its
`stat` still succeeds and yields the inode); `symlink` is an entry whose
`Dirent.isSymbolicLink()` is true.  Inodes model the `dev:ino` strings. -/
inductive FsNode where
  | file (size : Nat) (lines : List String)
  | fileUnreadable
  | dir (ino : Nat) (entries : List (String × FsNode))
  | dirUnreadable (ino : Nat)
  | symlink

/-- `Dirent.isSymbolicLink()`. -/
def FsNode.isSymbolicLink : FsNode → Bool
  | FsNode.symlink => true
  | _ => false

/-- `Dirent.isDirectory()`. -/
def FsNode.isDirectory : FsNode → Bool
  | FsNode.dir _ _ => true
  | FsNode.dirUnreadable _ => true
  | _ => false

/-- `Dirent.isFile()`. -/
def FsNode.isFile : FsNode → Bool
  | FsNode.file _ _ => true
  | FsNode.fileUnreadable => true
  | _ => false

/-- `fullPath.replace(projectRoot, "")`: every path it is applied to starts
with the project root, so in component space this strips the root prefix. -/
def relativize (root full : List String) : List String :=
  if root.isPrefixOf full then full.drop root.length else full

/-! ### SecretScanner (claims C2, C5, C7, C8) -/

/-- A compiled scan pattern: the `name` and the compiled regex, the latter
abstracted to its `test` predicate on a line. -/
structure ScanPattern where
  name : String
  test : String → Bool

/-- `MAX_FILE_SIZE` (`src/core/checks/security.ts:570`). -/
def MAX_FILE_SIZE : Nat := 10 * 1024 * 1024

/-- `s.slice(0, n)`. -/
def strTake (s : String) (n : Nat) : String :=
  ⟨s.data.take n⟩

/-- The `pattern\s*[:=]` alternative of the definition-detection regex
(`src/core/checks/security.ts:607`): an occurrence of `pattern`, then
whitespace, then `:` or `=`. -/
def patternColonEq : List Char → Bool
  | [] => false
  | c :: rest =>
    (if "pattern".data.isPrefixOf (c :: rest) then
      match ((c :: rest).drop 7).dropWhile Char.isWhitespace with
      | [] => false
      | d :: _ => d == ':' || d == '='
     else false) || patternColonEq rest

/-- The `const\s+patterns\b` (resp. `let`, `var`) alternatives of the
definition-detection regex: the keyword, at least one whitespace character,
then `patterns` followed by a word boundary. -/
def kwSpacePatterns (kw : List Char) : List Char → Bool
  | [] => false
  | c :: rest =>
    (if kw.isPrefixOf (c :: rest) then
      match (c :: rest).drop kw.length with
      | [] => false
      | d :: tail =>
        d.isWhitespace &&
        (match (d :: tail).dropWhile Char.isWhitespace with
         | [] => false
         | e :: tail2 =>
           if "patterns".data.isPrefixOf (e :: tail2) then
             match (e :: tail2).drop 8 with
             | [] => true
             | f :: _ => !isWordChar f
           else false)
     else false) || kwSpacePatterns kw rest

/-- The definition-detection regex
`/pattern\s*[:=]|new RegExp\(|const\s+patterns\b|let\s+patterns\b|var\s+patterns\b|\/.*\//`
(`src/core/checks/security.ts:606-607`).  The last alternative `\/.*\/`
holds of a newline-free line exactly when it contains two `/` characters. -/
def isDefinitionLine (trimmed : String) : Bool :=
  patternColonEq trimmed.data ||
  strIncludes trimmed "new RegExp(" ||
  kwSpacePatterns "const".data trimmed.data ||
  kwSpacePatterns "let".data trimmed.data ||
  kwSpacePatterns "var".data trimmed.data ||
  (match trimmed.data.filter (fun c => c == '/') with
   | _ :: _ :: _ => true
   | _ => false)

/-- The file-extension filter `/\.(ts|js|jsx|tsx|json)$/`
(`src/core/checks/security.ts:499`). -/
def hasCodeExt (name : String) : Bool :=
  strEndsWith name ".ts" || strEndsWith name ".js" || strEndsWith name ".jsx" ||
  strEndsWith name ".tsx" || strEndsWith name ".json"

/-- `scanFile` (`src/core/checks/security.ts:572-623`): skip files larger
than `MAX_FILE_SIZE`; otherwise, for each pattern and each line matching it,
push a `SecretMatch` unless the trimmed line starts with `//`, `#` or `*` or
contains `example`, `placeholder`, `TODO` or `FIXME`.  A file whose
`statSync`/`readFileSync` throws is skipped by the surrounding `catch`. -/
def scanFile (root : List String) (filePath : List String) (node : FsNode)
    (patterns : List ScanPattern) : List SecretMatch :=
  match node with
  | FsNode.file size lines =>
    if size > MAX_FILE_SIZE then []
    else
      (patterns.map (fun p =>
        lines.enum.filterMap (fun li =>
          let index := li.1
          let line := li.2
          if p.test line then
            let trimmed := jsTrim line
            if !strStartsWith trimmed "//" && !strStartsWith trimmed "#" &&
               !strStartsWith trimmed "*" && !strIncludes trimmed "example" &&
               !strIncludes trimmed "placeholder" && !strIncludes trimmed "TODO" &&
               !strIncludes trimmed "FIXME" then
              some
                { file := relativize root filePath
                  type := p.name
                  line := index + 1
                  snippet := strTake (jsTrim line) 200
                  isDefinition := isDefinitionLine trimmed }
            else none
          else none))).flatten
  | _ => []

mutual

/-- `scanDirectory` (`src/core/checks/security.ts:457-503`): refuse to scan a
directory outside the project root; skip unreadable directories and
non-directories (`readdirSync` throws, caught at lines 470-473); then process
the entries in order. -/
def scanDirectory (projectRoot : List String) (excludeDirs : List (List String))
    (patterns : List ScanPattern) (dir : List String) (node : FsNode) :
    List SecretMatch :=
  if !projectRoot.isPrefixOf dir then []
  else
    match node with
    | FsNode.dir _ entries => scanDirEntries projectRoot excludeDirs patterns dir entries
    | _ => []

/-- The `entries.forEach` body of `scanDirectory`
(`src/core/checks/security.ts:475-502`): skip symlinked entries, entries
resolving outside the project root and entries under `excludeDirs`; recurse
into non-hidden, non-`node_modules` directories; scan files matching the
extension filter. -/
def scanDirEntries (projectRoot : List String) (excludeDirs : List (List String))
    (patterns : List ScanPattern) (dir : List String)
    (entries : List (String × FsNode)) : List SecretMatch :=
  match entries with
  | [] => []
  | (name, child) :: rest =>
    let filePath := dir ++ [name]
    let here :=
      if child.isSymbolicLink then []
      else if !projectRoot.isPrefixOf filePath then []
      else if excludeDirs.any (fun d => d.isPrefixOf filePath) then []
      else if child.isDirectory then
        if !strStartsWith name "." && name != "node_modules" then
          scanDirectory projectRoot excludeDirs patterns filePath child
        else []
      else if hasCodeExt name then scanFile projectRoot filePath child patterns
      else []
    here ++ scanDirEntries projectRoot excludeDirs patterns dir rest

end

mutual

/-- Instrumentation of `scanDirectory`: the list of (path, node) pairs the
traversal touches — each directory it enters (reads with `readdirSync`) and
each file it hands to `scanFile` — with the guard structure copied unchanged
from `scanDirectory`/`scanDirEntries`. -/
def scanDirectoryTouched (projectRoot : List String) (excludeDirs : List (List String))
    (dir : List String) (node : FsNode) : List (List String × FsNode) :=
  if !projectRoot.isPrefixOf dir then []
  else
    match node with
    | FsNode.dir i entries =>
      (dir, FsNode.dir i entries) :: scanDirEntriesTouched projectRoot excludeDirs dir entries
    | _ => []

/-- Instrumentation of `scanDirEntries`: same guards, collecting the touched
paths instead of the matches. -/
def scanDirEntriesTouched (projectRoot : List String) (excludeDirs : List (List String))
    (dir : List String) (entries : List (String × FsNode)) :
    List (List String × FsNode) :=
  match entries with
  | [] => []
  | (name, child) :: rest =>
    let filePath := dir ++ [name]
    let here :=
      if child.isSymbolicLink then []
      else if !projectRoot.isPrefixOf filePath then []
      else if excludeDirs.any (fun d => d.isPrefixOf filePath) then []
      else if child.isDirectory then
        if !strStartsWith name "." && name != "node_modules" then
          scanDirectoryTouched projectRoot excludeDirs filePath child
        else []
      else if hasCodeExt name then [(filePath, child)]
      else []
    here ++ scanDirEntriesTouched projectRoot excludeDirs dir rest

end

/-! ### DirectoryWalker (claims C2, C4, C5)

`walkAndCollect` (`src/unnamed/part_010:105-179`).  The by-reference
accumulator `out` becomes the first component of the result; the module-level
mutable set `visitedInodes` (`src/unnamed/part_010:103`) becomes explicit
state, threaded in and out — the source declares it once at module scope, so
the set a later invocation starts from is whatever the previous invocation
left behind. -/

/-- `MAX_DEPTH` (`src/unnamed/part_010:102`). -/
def MAX_DEPTH : Nat := 10

/-- The test-file filter `/(\.test\.ts$|\.spec\.ts$|\.test\.js$|\.spec\.js$)/i`
(`src/unnamed/part_010:84`). -/
def testFileRe (name : String) : Bool :=
  let l := strToLower name
  strEndsWith l ".test.ts" || strEndsWith l ".spec.ts" ||
    strEndsWith l ".test.js" || strEndsWith l ".spec.js"

mutual

/-- `walkAndCollect` (`src/unnamed/part_010:105-179`), step by step:
return on `depth > MAX_DEPTH` (107-110); return if `stat` says the path is
not a directory (112-119; a symlinked start is abstracted to this case);
return on a visited inode, else add the inode (121-127); return if the
resolved path leaves the project root (129-135) — `without` removing the
inode; return if `readdir` throws (137-143) — again without removing the
inode; otherwise process the entries and finally remove the inode (145-178).
The relative-path computation at 164-167 strips the root prefix
(`relativize`). -/
def walkAndCollect (root : List String) (re : String → Bool) (dir : List String)
    (node : FsNode) (depth : Nat) (visited : List Nat) :
    List (List String) × List Nat :=
  if depth > MAX_DEPTH then ([], visited)
  else
    match node with
    | FsNode.dir ino entries =>
      if visited.contains ino then ([], visited)
      else
        let visited1 := ino :: visited
        if !root.isPrefixOf dir then ([], visited1)
        else
          let res := walkEntriesCollect root re dir entries depth visited1
          (res.1, res.2.erase ino)
    | FsNode.dirUnreadable ino =>
      if visited.contains ino then ([], visited)
      else
        let visited1 := ino :: visited
        if !root.isPrefixOf dir then ([], visited1)
        else ([], visited1)
    | _ => ([], visited)

/-- The `for (const e of entries)` body of `walkAndCollect`
(`src/unnamed/part_010:145-174`): skip symlinked entries; recurse into
directories that are neither `node_modules` nor hidden, with incremented
depth; push files matching the filter. -/
def walkEntriesCollect (root : List String) (re : String → Bool) (dir : List String)
    (entries : List (String × FsNode)) (depth : Nat) (visited : List Nat) :
    List (List String) × List Nat :=
  match entries with
  | [] => ([], visited)
  | (name, child) :: rest =>
    if child.isSymbolicLink then walkEntriesCollect root re dir rest depth visited
    else if child.isDirectory then
      if name == "node_modules" || strStartsWith name "." then
        walkEntriesCollect root re dir rest depth visited
      else
        let r1 := walkAndCollect root re (dir ++ [name]) child (depth + 1) visited
        let r2 := walkEntriesCollect root re dir rest depth r1.2
        (r1.1 ++ r2.1, r2.2)
    else if child.isFile then
      if re name then
        let r2 := walkEntriesCollect root re dir rest depth visited
        (relativize root (dir ++ [name]) :: r2.1, r2.2)
      else walkEntriesCollect root re dir rest depth visited
    else walkEntriesCollect root re dir rest depth visited

end

mutual

/-- Instrumentation of `walkAndCollect`: the (path, node) pairs the walk
touches — each directory whose entries it reads and each file it pushes —
with the guard structure (depth bound, visited set, containment check,
symlink skip) copied unchanged. -/
def walkTouched (root : List String) (re : String → Bool) (dir : List String)
    (node : FsNode) (depth : Nat) (visited : List Nat) :
    List (List String × FsNode) × List Nat :=
  if depth > MAX_DEPTH then ([], visited)
  else
    match node with
    | FsNode.dir ino entries =>
      if visited.contains ino then ([], visited)
      else
        let visited1 := ino :: visited
        if !root.isPrefixOf dir then ([], visited1)
        else
          let res := walkEntriesTouched root re dir entries depth visited1
          ((dir, FsNode.dir ino entries) :: res.1, res.2.erase ino)
    | FsNode.dirUnreadable ino =>
      if visited.contains ino then ([], visited)
      else
        let visited1 := ino :: visited
        if !root.isPrefixOf dir then ([], visited1)
        else ([], visited1)
    | _ => ([], visited)

/-- Instrumentation of `walkEntriesCollect`: same guards, collecting touched
paths. -/
def walkEntriesTouched (root : List String) (re : String → Bool) (dir : List String)
    (entries : List (String × FsNode)) (depth : Nat) (visited : List Nat) :
    List (List String × FsNode) × List Nat :=
  match entries with
  | [] => ([], visited)
  | (name, child) :: rest =>
    if child.isSymbolicLink then walkEntriesTouched root re dir rest depth visited
    else if child.isDirectory then
      if name == "node_modules" || strStartsWith name "." then
        walkEntriesTouched root re dir rest depth visited
      else
        let r1 := walkTouched root re (dir ++ [name]) child (depth + 1) visited
        let r2 := walkEntriesTouched root re dir rest depth r1.2
        (r1.1 ++ r2.1, r2.2)
    else if child.isFile then
      if re name then
        let r2 := walkEntriesTouched root re dir rest depth visited
        ((dir ++ [name], child) :: r2.1, r2.2)
      else walkEntriesTouched root re dir rest depth visited
    else walkEntriesTouched root re dir rest depth visited

end

/-! ### Scan patterns (claim C3) -/

/-- A scan pattern as configured: name, regex source text, flags. -/
structure ScanPatternSrc where
  name : String
  pattern : String
  flags : String
deriving DecidableEq, Repr

/-- An entry of the optional `config/patterns.json` file. -/
structure ConfigPattern where
  name : String
  pattern : String
  flags : Option String
deriving DecidableEq, Repr

/-- The built-in default patterns (`src/core/checks/security.ts:419-429`),
with their regex sources verbatim (every default literal carries the `i`
flag).  `\x7b`/`\x7d` denote the brace characters of the bounded
quantifiers and `\x27` a single quote. -/
def defaultPatterns : List ScanPatternSrc :=
  [{ name := "AWS Access Key", pattern := "AKIA[0-9A-Z]\x7b16\x7d", flags := "i" },
   { name := "AWS Secret Key",
     pattern := "aws_secret_access_key\\s*[=:]\\s*[\x27\"]?[A-Za-z0-9/+=]\x7b40\x7d[\x27\"]?",
     flags := "i" },
   { name := "Stripe Live Key", pattern := "sk_live_[0-9a-zA-Z]\x7b24,99\x7d", flags := "i" },
   { name := "Google API Key", pattern := "AIza[0-9A-Za-z\\-_]\x7b35\x7d", flags := "i" },
   { name := "GitHub PAT", pattern := "ghp_[0-9a-zA-Z]\x7b36\x7d", flags := "i" },
   { name := "GitHub PAT (alt)",
     pattern := "github_pat_[0-9a-zA-Z]\x7b22\x7d_[0-9a-zA-Z]\x7b59\x7d", flags := "i" },
   { name := "Bearer Token", pattern := "Bearer\\s+[A-Za-z0-9\\-._~+/]\x7b10,500\x7d",
     flags := "i" },
   { name := "JWT Token",
     pattern := "eyJ[A-Za-z0-9_-]\x7b10,500\x7d\\.[A-Za-z0-9_-]\x7b10,500\x7d\\.[A-Za-z0-9_-]\x7b10,500\x7d",
     flags := "i" }]

/-- `loadPatterns` (`src/core/checks/security.ts:402-432`).  The argument is
the outcome of the `config/patterns.json` probe: `none` when the file does
not exist; `some none` when reading or parsing it throws (the `catch` falls
through to the defaults); `some (some list)` when it parses, in which case
each entry is compiled as `new RegExp(p.pattern, p.flags || "i")` with no
further validation of the pattern text. -/
def loadPatterns (cfg : Option (Option (List ConfigPattern))) : List ScanPatternSrc :=
  match cfg with
  | some (some list) =>
    list.map (fun p => { name := p.name, pattern := p.pattern, flags := p.flags.getD "i" })
  | some none => defaultPatterns
  | none => defaultPatterns

/-- State machine deciding whether a regex source contains an unbounded `*`
or `+` quantifier: scans the text tracking escape (`\\`) and character-class
(`[...]`) context; a bare `*` or `+` outside a class is an unbounded
quantifier (in all the regexes at issue every such character quantifies the
preceding atom). -/
def hasUnboundedQuantAux : List Char → Bool → Bool → Bool
  | [], _, _ => false
  | c :: rest, inClass, afterEsc =>
    if afterEsc then hasUnboundedQuantAux rest inClass false
    else if c == '\\' then hasUnboundedQuantAux rest inClass true
    else if inClass then
      if c == ']' then hasUnboundedQuantAux rest false false
      else hasUnboundedQuantAux rest true false
    else if c == '[' then hasUnboundedQuantAux rest true false
    else if c == '*' || c == '+' then true
    else hasUnboundedQuantAux rest false false

/-- A regex source contains an unbounded `*` or `+` quantifier. -/
def hasUnboundedQuant (pattern : String) : Bool :=
  hasUnboundedQuantAux pattern.data false false

/-! ### The compiled "AWS Access Key" pattern

`/AKIA[0-9A-Z]{16}/i` compiled to its `test` semantics: some position of the
line starts with `AKIA` (case-insensitive, because of the `i` flag) followed
by 16 characters from `[0-9A-Z]` read case-insensitively. -/

/-- `[0-9A-Z]` under the `i` flag: digits and letters of either case. -/
def isAkiaBodyChar (c : Char) : Bool :=
  c.isDigit || c.isUpper || c.isLower

/-- The regex matches at the head of the given suffix. -/
def awsKeyAt : List Char → Bool
  | a :: k :: i :: a2 :: rest =>
    a.toLower == 'a' && k.toLower == 'k' && i.toLower == 'i' && a2.toLower == 'a' &&
    (rest.take 16).length == 16 && (rest.take 16).all isAkiaBodyChar
  | _ => false

/-- The regex matches at some position. -/
def awsScan : List Char → Bool
  | [] => false
  | c :: rest => awsKeyAt (c :: rest) || awsScan rest

/-- `pattern.test line` for the compiled default pattern `AKIA[0-9A-Z]{16}`
with flag `i` (`defaultPatterns` head). -/
def awsAccessKeyTest (line : String) : Bool :=
  awsScan line.data

/-- The compiled `ScanPattern` for `defaultPatterns` head. -/
def awsAccessKey : ScanPattern :=
  { name := "AWS Access Key", test := awsAccessKeyTest }

/-! ### checkSecrets aggregation (claim C7) -/

/-- The aggregation step of `checkSecrets`
(`src/core/checks/security.ts:505-554`), applied to the collected
`foundSecrets` (and, for the all-clear branch, to the `countFilesInDir` and
`patterns.length` statistics). -/
def checkSecretsAggregate (foundSecrets : List SecretMatch)
    (filesScanned patternsChecked : Nat) : CheckResult :=
  if foundSecrets.length > 0 then
    let defs := foundSecrets.filter (fun s => s.isDefinition)
    let reals := foundSecrets.filter (fun s => !s.isDefinition)
    if reals.length > 0 then
      { name := "secrets scan", status := CheckStatus.fail, severity := Severity.critical
        message := "Found potential secrets in " ++ toString reals.length ++
          " locations (plus " ++ toString defs.length ++ " possible pattern definitions)"
        details := Details.secretsFound (reals.take 10) (defs.take 5)
          reals.length defs.length
        suggestions :=
          ["Remove hardcoded secrets", "Use environment variables",
           "Add files to .gitignore"] }
    else
      { name := "secrets scan", status := CheckStatus.warn, severity := Severity.warning
        message := "Only pattern/regex definitions found (" ++ toString defs.length ++
          " matches) — possible false positives"
        details := Details.secretsDefs (defs.take 5) defs.length
        suggestions :=
          ["Move pattern/regex definitions to a separate config file (e.g. config/patterns.json)",
           "Or annotate pattern definition lines with a comment like // security-reporter:ignore"] }
  else
    { name := "secrets scan", status := CheckStatus.pass, severity := Severity.info
      message := "No hardcoded secrets found"
      details := Details.scanStats filesScanned patternsChecked }

/-! ### ProcessRunner (claim C6)

`spawnCommand` (`src/core/checks/security.ts:1177-1242`).  The asynchronous
interaction with the child process is modelled as an explicit trace: the
ordered `data` chunks the process emits, then the first terminal event to
reach the promise — `close(code)`, the `error` event (spawn failure), or the
expiry of the timeout timer.  Once a cap is exceeded the promise settles and
the process is killed, so later events are irrelevant; `close` clears the
timer, so a trace ending in `close` is one where the timer never fired. -/

/-- A `data` event on stdout or stderr. -/
inductive ProcChunk where
  | outData (s : String)
  | errData (s : String)
deriving DecidableEq, Repr

/-- The first terminal event: process close (with its exit code, `none` when
killed by a signal), the spawn-failure `error` event, or timeout expiry. -/
inductive ProcTerminal where
  | close (code : Option Int)
  | spawnErrorEvent (msg : String)
  | timeoutFired
deriving DecidableEq, Repr

/-- The resolution value `{stdout, stderr, code}`. -/
structure ProcessResult where
  stdout : String
  stderr : String
  code : Int
deriving DecidableEq, Repr

/-- The rejection reasons of `spawnCommand`: timeout (line 1198),
stdout/stderr over `maxBuffer` (1206, 1215), non-`0`/`1` exit code with the
captured output attached (1226-1230), and the OS spawn error (1238). -/
inductive SpawnRejection where
  | timedOut (timeoutMs : Nat)
  | stdoutExceeded (maxBuffer : Nat)
  | stderrExceeded (maxBuffer : Nat)
  | commandFailed (code : Option Int) (stdout : String) (stderr : String)
  | osError (msg : String)
deriving DecidableEq, Repr

/-- The event-processing loop of `spawnCommand`: accumulate each chunk,
rejecting as soon as a buffer exceeds `maxBuffer`; at the terminal event,
resolve with the captured output exactly for exit code `0` or `1`
(`code === 0 || code === 1`, line 1222; `code: code || 0`), reject with a
structured error for any other close, with the timeout error if the timer
fired first, and with the OS error on spawn failure. -/
def spawnRun (timeoutMs maxBuffer : Nat) (stdout stderr : String) :
    List ProcChunk → ProcTerminal → Except SpawnRejection ProcessResult
  | [], term =>
    match term with
    | ProcTerminal.timeoutFired => Except.error (SpawnRejection.timedOut timeoutMs)
    | ProcTerminal.spawnErrorEvent m => Except.error (SpawnRejection.osError m)
    | ProcTerminal.close code =>
      if code == some 0 || code == some 1 then
        Except.ok { stdout := stdout, stderr := stderr, code := code.getD 0 }
      else
        Except.error (SpawnRejection.commandFailed code stdout stderr)
  | ProcChunk.outData s :: rest, term =>
    let stdout1 := stdout ++ s
    if stdout1.length > maxBuffer then
      Except.error (SpawnRejection.stdoutExceeded maxBuffer)
    else spawnRun timeoutMs maxBuffer stdout1 stderr rest term
  | ProcChunk.errData s :: rest, term =>
    let stderr1 := stderr ++ s
    if stderr1.length > maxBuffer then
      Except.error (SpawnRejection.stderrExceeded maxBuffer)
    else spawnRun timeoutMs maxBuffer stdout stderr1 rest term

/-- `spawnCommand` on a trace, starting from empty buffers
(`src/core/checks/security.ts:1190-1191`). -/
def spawnCommand (timeoutMs maxBuffer : Nat) (chunks : List ProcChunk)
    (term : ProcTerminal) : Except SpawnRejection ProcessResult :=
  spawnRun timeoutMs maxBuffer "" "" chunks term

/-- Both output buffers stay within `maxBuffer` throughout the chunk list,
starting from the given buffer contents (mirrors the cap checks of
`spawnRun`). -/
def withinCaps (maxBuffer : Nat) (stdout stderr : String) : List ProcChunk → Bool
  | [] => true
  | ProcChunk.outData s :: rest =>
    if (stdout ++ s).length > maxBuffer then false
    else withinCaps maxBuffer (stdout ++ s) stderr rest
  | ProcChunk.errData s :: rest =>
    if (stderr ++ s).length > maxBuffer then false
    else withinCaps maxBuffer stdout (stderr ++ s) rest

/-- Concatenation of the stdout chunks of a trace. -/
def stdoutAcc : List ProcChunk → String
  | [] => ""
  | ProcChunk.outData s :: rest => s ++ stdoutAcc rest
  | ProcChunk.errData _ :: rest => stdoutAcc rest

/-- Concatenation of the stderr chunks of a trace. -/
def stderrAcc : List ProcChunk → String
  | [] => ""
  | ProcChunk.outData _ :: rest => stderrAcc rest
  | ProcChunk.errData s :: rest => s ++ stderrAcc rest

/-! ## Theorems -/

/-- C10: for every generated report, the summary counts partition the checks
list exactly: `summary.total` is the length of the checks list, and
`passed + warnings + failed + skipped = total`, each count being the number
of checks with that status. -/
theorem calculateSummary_partitions (checks : List CheckResult) :
    (calculateSummary checks).total = checks.length ∧
    (calculateSummary checks).passed = (checks.filter (fun c => c.status = CheckStatus.pass)).length ∧
    (calculateSummary checks).warnings = (checks.filter (fun c => c.status = CheckStatus.warn)).length ∧
    (calculateSummary checks).failed = (checks.filter (fun c => c.status = CheckStatus.fail)).length ∧
    (calculateSummary checks).skipped = (checks.filter (fun c => c.status = CheckStatus.skip)).length ∧
    (calculateSummary checks).passed + (calculateSummary checks).warnings +
      (calculateSummary checks).failed + (calculateSummary checks).skipped =
      (calculateSummary checks).total := by
  refine ⟨rfl, rfl, rfl, rfl, rfl, ?_⟩
  simp only [calculateSummary]
  induction checks with
  | nil => rfl
  | cons c cs ih =>
    simp only [List.filter_cons, List.length_cons]
    cases h : c.status <;> simp [h] <;> omega

/-- C9: the overall status is computed by strict precedence — any `fail`
gives overall `fail`; otherwise any `warn` gives `warn`; otherwise all
`skip` gives `skip`; otherwise `pass`. -/
theorem determineOverallStatus_precedence (checks : List CheckResult) :
    ((∃ c ∈ checks, c.status = CheckStatus.fail) →
      determineOverallStatus checks = CheckStatus.fail) ∧
    ((∀ c ∈ checks, c.status ≠ CheckStatus.fail) →
      (∃ c ∈ checks, c.status = CheckStatus.warn) →
      determineOverallStatus checks = CheckStatus.warn) ∧
    ((∀ c ∈ checks, c.status ≠ CheckStatus.fail) →
      (∀ c ∈ checks, c.status ≠ CheckStatus.warn) →
      (∀ c ∈ checks, c.status = CheckStatus.skip) →
      determineOverallStatus checks = CheckStatus.skip) ∧
    ((∀ c ∈ checks, c.status ≠ CheckStatus.fail) →
      (∀ c ∈ checks, c.status ≠ CheckStatus.warn) →
      ¬ (∀ c ∈ checks, c.status = CheckStatus.skip) →
      determineOverallStatus checks = CheckStatus.pass) := by
  simp only [determineOverallStatus, List.any_eq_true, List.all_eq_true, beq_iff_eq]
  refine ⟨?_, ?_, ?_, ?_⟩
  · intro h
    rw [if_pos h]
  · intro hnf hw
    rw [if_neg (by simpa using hnf), if_pos hw]
  · intro hnf hnw hsk
    rw [if_neg (by simpa using hnf), if_neg (by simpa using hnw), if_pos hsk]
  · intro hnf hnw hns
    rw [if_neg (by simpa using hnf), if_neg (by simpa using hnw), if_neg hns]

/-- Witness for C9: a singleton `fail` check produces overall `fail`. -/
theorem determineOverallStatus_precedence_witness :
    determineOverallStatus
      [{ name := "licenses", status := CheckStatus.fail, severity := Severity.error,
         message := "License compliance issues detected" }] = CheckStatus.fail :=
  (determineOverallStatus_precedence _).1
    ⟨{ name := "licenses", status := CheckStatus.fail, severity := Severity.error,
       message := "License compliance issues detected" },
     List.mem_singleton.mpr rfl, rfl⟩

/-- C1 (code bug): `runValidation` does not convert a throwing check into a
`fail` `CheckResult`.  With `.env` present and `.gitignore` present but
unreadable, `checkEnvFiles` (which has no `try`/`catch`) throws, the
rejection propagates through `Promise.all`, and `runValidation` rejects
instead of returning a report with one `CheckResult` per declared check —
while on the same check list with a readable `.gitignore` the report does
contain exactly one result per check. -/
theorem runValidation_env_exception_escapes :
    runValidation "backend"
      [Except.ok { name := "npm audit", status := CheckStatus.pass,
                   severity := Severity.info, message := "No vulnerabilities found" },
       Except.ok { name := "lockfile", status := CheckStatus.warn,
                   severity := Severity.warning, message := "No lockfile found" },
       checkEnvFiles { hasEnv := true, hasEnvExample := false, hasGitignore := true,
                       gitignoreContent := none }] =
      Except.error "EACCES: permission denied, open .gitignore" ∧
    (runValidation "backend"
      [Except.ok { name := "npm audit", status := CheckStatus.pass,
                   severity := Severity.info, message := "No vulnerabilities found" },
       Except.ok { name := "lockfile", status := CheckStatus.warn,
                   severity := Severity.warning, message := "No lockfile found" },
       checkEnvFiles { hasEnv := true, hasEnvExample := false, hasGitignore := true,
                       gitignoreContent := some ".env\n" }]).toOption.map
        (fun r => r.checks.length) = some 3 := by
  constructor
  · rfl
  · rfl

/-- C4 (code bug): the walker's visited-inode set is not restored on every
exit path.  A directory whose `readdir` throws has its inode added
(`src/unnamed/part_010:127`) but the early return at lines 140-143 skips the
`visitedInodes.delete` at line 178; since `visitedInodes` lives at module
scope (line 103), the leaked inode survives the invocation, and a later
traversal of the same — now readable — directory is skipped as a circular
link (second conjunct), unlike a traversal from the empty set (third
conjunct), which both collects the file and restores the set. -/
theorem walkAndCollect_set_not_restored :
    walkAndCollect ["r"] testFileRe ["r", "test"] (FsNode.dirUnreadable 7) 0 [] = ([], [7]) ∧
    walkAndCollect ["r"] testFileRe ["r", "test"]
      (FsNode.dir 7 [("a.test.ts", FsNode.file 4 ["x"])]) 0 [7] = ([], [7]) ∧
    walkAndCollect ["r"] testFileRe ["r", "test"]
      (FsNode.dir 7 [("a.test.ts", FsNode.file 4 ["x"])]) 0 [] =
      ([["test", "a.test.ts"]], []) := by
  refine ⟨by decide, by decide, by decide⟩

/-- C3 counterexample: with no config file the active patterns are the
built-in defaults, and one of them ("Bearer Token", index 6, via its `\s+`)
contains an unbounded `+`/`*` quantifier. -/
theorem defaultPattern_unbounded_quantifier :
    (loadPatterns none).any (fun p => hasUnboundedQuant p.pattern) = true ∧
    ((loadPatterns none)[6]?).map ScanPatternSrc.name = some "Bearer Token" ∧
    ((loadPatterns none)[6]?).map (fun p => hasUnboundedQuant p.pattern) = some true := by
  refine ⟨by decide, by decide, by decide⟩

/-- C3 amended: the secret bodies of the eight built-in patterns are bounded
with explicit `{n}`/`{m,n}` quantifiers, but two of them — "AWS Secret Key"
(index 1) and "Bearer Token" (index 6) — contain unbounded `\s*`/`\s+`
whitespace quantifiers, and patterns loaded from `config/patterns.json` are
compiled verbatim, with no boundedness validation at all (an `a+` config
entry becomes an active pattern unchanged). -/
theorem loadPatterns_boundedness_status :
    (loadPatterns none).map (fun p => hasUnboundedQuant p.pattern) =
      [false, true, false, false, false, false, true, false] ∧
    (∀ cfg : List ConfigPattern,
      loadPatterns (some (some cfg)) =
        cfg.map (fun p =>
          { name := p.name, pattern := p.pattern, flags := p.flags.getD "i" })) ∧
    loadPatterns (some (some [{ name := "Anything", pattern := "a+", flags := none }])) =
      [{ name := "Anything", pattern := "a+", flags := "i" }] ∧
    hasUnboundedQuant "a+" = true := by
  refine ⟨by decide, fun cfg => rfl, by decide, by decide⟩

/-- The scenario line of the spec: `AKIA` followed by 16 uppercase
alphanumerics, assigned on a plain, non-comment, non-definition line. -/
def awsLine : String := "const k = \x22AKIAABCDEFGHIJKLMNOP\x22"

/-- The match `scanFile` produces for `awsLine` as line 1 of `src/a.ts`. -/
def awsMatchA : SecretMatch :=
  { file := ["src", "a.ts"], type := "AWS Access Key", line := 1,
    snippet := awsLine, isDefinition := false }

/-- The same match on line 2 of the same file. -/
def awsMatchB : SecretMatch :=
  { file := ["src", "a.ts"], type := "AWS Access Key", line := 2,
    snippet := awsLine, isDefinition := false }

/-- C7 counterexample: two real matches of the same pattern in the same file
produce a failing result whose details list the raw matches — the file list
(one entry per match) contains a duplicate, so the details are not a
per-pattern-name deduplicated file list. -/
theorem checkSecretsAggregate_files_not_deduplicated :
    (checkSecretsAggregate [awsMatchA, awsMatchB] 1 8).status = CheckStatus.fail ∧
    (checkSecretsAggregate [awsMatchA, awsMatchB] 1 8).details =
      Details.secretsFound [awsMatchA, awsMatchB] [] 2 0 ∧
    ¬ ([awsMatchA, awsMatchB].map SecretMatch.file).Nodup := by
  refine ⟨by decide, by decide, by decide⟩

/-- C7 amended: at least one real (non-definition) match gives a `fail`,
`critical` result whose details hold the first 10 real matches verbatim
(files may repeat; there is no grouping by pattern name) and the first 5
definition matches; no real match but at least one definition match gives a
non-failing `warn`, `warning` result; and the `AKIA` + 16 uppercase
alphanumerics scenario yields exactly one real "AWS Access Key" match whose
aggregate is `fail`/`critical`. -/
theorem checkSecretsAggregate_behaviour :
    (∀ found fsn pc, 0 < (found.filter (fun s => !s.isDefinition)).length →
      checkSecretsAggregate found fsn pc =
        { name := "secrets scan", status := CheckStatus.fail, severity := Severity.critical
          message := "Found potential secrets in " ++
            toString (found.filter (fun s => !s.isDefinition)).length ++
            " locations (plus " ++ toString (found.filter (fun s => s.isDefinition)).length ++
            " possible pattern definitions)"
          details := Details.secretsFound ((found.filter (fun s => !s.isDefinition)).take 10)
            ((found.filter (fun s => s.isDefinition)).take 5)
            (found.filter (fun s => !s.isDefinition)).length
            (found.filter (fun s => s.isDefinition)).length
          suggestions := ["Remove hardcoded secrets", "Use environment variables",
            "Add files to .gitignore"] }) ∧
    (∀ found fsn pc, 0 < found.length →
      (found.filter (fun s => !s.isDefinition)).length = 0 →
      (checkSecretsAggregate found fsn pc).status = CheckStatus.warn ∧
      (checkSecretsAggregate found fsn pc).severity = Severity.warning) ∧
    scanFile ["r"] ["r", "src", "a.ts"] (FsNode.file 40 [awsLine]) [awsAccessKey] =
      [awsMatchA] ∧
    (checkSecretsAggregate
      (scanFile ["r"] ["r", "src", "a.ts"] (FsNode.file 40 [awsLine]) [awsAccessKey])
      1 8).status = CheckStatus.fail ∧
    (checkSecretsAggregate
      (scanFile ["r"] ["r", "src", "a.ts"] (FsNode.file 40 [awsLine]) [awsAccessKey])
      1 8).severity = Severity.critical := by
  refine ⟨?_, ?_, by decide, by decide, by decide⟩
  · intro found fsn pc h
    have hf : 0 < found.length :=
      Nat.lt_of_lt_of_le h (List.length_filter_le _ _)
    simp only [checkSecretsAggregate]
    rw [if_pos hf, if_pos h]
  · intro found fsn pc hf h
    simp only [checkSecretsAggregate]
    rw [if_pos hf, if_neg (by omega)]
    exact ⟨rfl, rfl⟩

/-- Witness for C7's amended theorem: a single real match aggregates to the
`fail`/`critical` result with that match in the details. -/
theorem checkSecretsAggregate_behaviour_witness :
    checkSecretsAggregate [awsMatchA] 1 8 =
      { name := "secrets scan", status := CheckStatus.fail, severity := Severity.critical
        message := "Found potential secrets in 1 locations (plus 0 possible pattern definitions)"
        details := Details.secretsFound [awsMatchA] [] 1 0
        suggestions := ["Remove hardcoded secrets", "Use environment variables",
          "Add files to .gitignore"] } := by
  have h := (checkSecretsAggregate_behaviour).1 [awsMatchA] 1 8 (by decide)
  simpa using h

/-- Processing a trace whose chunks stay within the caps just accumulates the
output and hands the terminal event the concatenated buffers. -/
theorem spawnRun_within (t mb : Nat) :
    ∀ (chunks : List ProcChunk) (stdout stderr : String),
      withinCaps mb stdout stderr chunks = true →
      ∀ term, spawnRun t mb stdout stderr chunks term =
        spawnRun t mb (stdout ++ stdoutAcc chunks) (stderr ++ stderrAcc chunks) [] term := by
  intro chunks
  induction chunks with
  | nil =>
    intro so se h term
    simp [stdoutAcc, stderrAcc]
  | cons c rest ih =>
    intro so se h term
    cases c with
    | outData s =>
      simp only [withinCaps] at h
      by_cases hcap : (so ++ s).length > mb
      · rw [if_pos hcap] at h; exact absurd h (by simp)
      · rw [if_neg hcap] at h
        simp only [spawnRun, stdoutAcc, stderrAcc]
        rw [if_neg hcap, ih (so ++ s) se h term, String.append_assoc]
        simp [spawnRun]
    | errData s =>
      simp only [withinCaps] at h
      by_cases hcap : (se ++ s).length > mb
      · rw [if_pos hcap] at h; exact absurd h (by simp)
      · rw [if_neg hcap] at h
        simp only [spawnRun, stdoutAcc, stderrAcc]
        rw [if_neg hcap, ih so (se ++ s) h term, String.append_assoc]
        simp [spawnRun]

/-- Processing a trace that exceeds a cap rejects with the corresponding
buffer-exceeded error, whatever the terminal event would have been. -/
theorem spawnRun_exceeded (t mb : Nat) :
    ∀ (chunks : List ProcChunk) (stdout stderr : String),
      withinCaps mb stdout stderr chunks = false →
      ∀ term, spawnRun t mb stdout stderr chunks term =
          Except.error (SpawnRejection.stdoutExceeded mb) ∨
        spawnRun t mb stdout stderr chunks term =
          Except.error (SpawnRejection.stderrExceeded mb) := by
  intro chunks
  induction chunks with
  | nil => intro so se h term; simp [withinCaps] at h
  | cons c rest ih =>
    intro so se h term
    cases c with
    | outData s =>
      simp only [withinCaps] at h
      by_cases hcap : (so ++ s).length > mb
      · left; simp only [spawnRun]; rw [if_pos hcap]
      · rw [if_neg hcap] at h
        simp only [spawnRun]; rw [if_neg hcap]
        exact ih (so ++ s) se h term
    | errData s =>
      simp only [withinCaps] at h
      by_cases hcap : (se ++ s).length > mb
      · right; simp only [spawnRun]; rw [if_pos hcap]
      · rw [if_neg hcap] at h
        simp only [spawnRun]; rw [if_neg hcap]
        exact ih so (se ++ s) h term


/-- C6: `spawnCommand` resolves with the captured stdout/stderr and exit code
exactly when the process closes with code 0 or 1 within the caps (1 being
success-with-result); otherwise it rejects — with the timeout error when the
timer fires first, with a buffer-exceeded error as soon as either output
stream exceeds `maxBuffer` (regardless of the eventual terminal event), with
a structured error carrying the captured output for any other exit code, and
with the OS error on spawn failure. -/
theorem spawnCommand_contract :
    (∀ (t mb : Nat) (chunks : List ProcChunk) (c : Int),
      withinCaps mb "" "" chunks = true → c = 0 ∨ c = 1 →
      spawnCommand t mb chunks (ProcTerminal.close (some c)) =
        Except.ok { stdout := stdoutAcc chunks, stderr := stderrAcc chunks, code := c }) ∧
    (∀ (t mb : Nat) (chunks : List ProcChunk) (c : Option Int),
      withinCaps mb "" "" chunks = true → ¬(c = some 0 ∨ c = some 1) →
      spawnCommand t mb chunks (ProcTerminal.close c) =
        Except.error (SpawnRejection.commandFailed c (stdoutAcc chunks) (stderrAcc chunks))) ∧
    (∀ (t mb : Nat) (chunks : List ProcChunk),
      withinCaps mb "" "" chunks = true →
      spawnCommand t mb chunks ProcTerminal.timeoutFired =
        Except.error (SpawnRejection.timedOut t)) ∧
    (∀ (t mb : Nat) (chunks : List ProcChunk) (msg : String),
      withinCaps mb "" "" chunks = true →
      spawnCommand t mb chunks (ProcTerminal.spawnErrorEvent msg) =
        Except.error (SpawnRejection.osError msg)) ∧
    (∀ (t mb : Nat) (chunks : List ProcChunk) (term : ProcTerminal),
      withinCaps mb "" "" chunks = false →
      spawnCommand t mb chunks term = Except.error (SpawnRejection.stdoutExceeded mb) ∨
      spawnCommand t mb chunks term = Except.error (SpawnRejection.stderrExceeded mb)) := by
  refine ⟨?_, ?_, ?_, ?_, ?_⟩
  · intro t mb chunks c hcaps hc
    simp only [spawnCommand]
    rw [spawnRun_within t mb chunks "" "" hcaps]
    rcases hc with h | h <;> subst h <;> simp [spawnRun]
  · intro t mb chunks c hcaps hc
    have hb : (c == some 0 || c == some 1) = false := by
      simp only [Bool.or_eq_false_iff, beq_eq_false_iff_ne]
      exact ⟨fun h => hc (Or.inl h), fun h => hc (Or.inr h)⟩
    simp only [spawnCommand]
    rw [spawnRun_within t mb chunks "" "" hcaps]
    simp [spawnRun, hb]
  · intro t mb chunks hcaps
    simp only [spawnCommand]
    rw [spawnRun_within t mb chunks "" "" hcaps]
    simp [spawnRun]
  · intro t mb chunks msg hcaps
    simp only [spawnCommand]
    rw [spawnRun_within t mb chunks "" "" hcaps]
    simp [spawnRun]
  · intro t mb chunks term hcaps
    exact spawnRun_exceeded t mb chunks "" "" hcaps term

/-- Witness for C6: a two-chunk trace closing with exit code 1 resolves with
the captured output and code 1. -/
theorem spawnCommand_contract_witness :
    spawnCommand 30000 100 [ProcChunk.outData "audit-json", ProcChunk.errData "warning"]
      (ProcTerminal.close (some 1)) =
      Except.ok { stdout := "audit-json", stderr := "warning", code := 1 } := by
  have h := spawnCommand_contract.1 30000 100
    [ProcChunk.outData "audit-json", ProcChunk.errData "warning"] 1 (by decide) (Or.inr rfl)
  simpa using h


/-- The false-positive suppression test of `scanFile`
(`src/core/checks/security.ts:596-603`), phrased positively: the trimmed line
starts with a comment marker (`//`, `#` or `*`) or contains a placeholder
marker (`example`, `placeholder`, `TODO` or `FIXME`). -/
def suppressedLine (trimmed : String) : Bool :=
  strStartsWith trimmed "//" || strStartsWith trimmed "#" || strStartsWith trimmed "*" ||
  strIncludes trimmed "example" || strIncludes trimmed "placeholder" ||
  strIncludes trimmed "TODO" || strIncludes trimmed "FIXME"

/-- C8: every `SecretMatch` record `scanFile` produces comes from a line that
matched a pattern and is not suppressed — so a matching line whose trimmed
form starts with a comment marker or contains a placeholder marker yields no
record at all, neither real nor definition; in particular the `AKIA` + 16
uppercase alphanumerics literal on a line starting with `//` yields zero
matches. -/
theorem scanFile_suppresses_flagged_lines :
    (∀ (root filePath : List String) (size : Nat) (lines : List String)
        (patterns : List ScanPattern) (m : SecretMatch),
      m ∈ scanFile root filePath (FsNode.file size lines) patterns →
      ∃ l, lines[m.line - 1]? = some l ∧ suppressedLine (jsTrim l) = false ∧
        ∃ p ∈ patterns, p.test l = true) ∧
    scanFile ["r"] ["r", "src", "a.ts"]
      (FsNode.file 43 ["// const k = \x22AKIAABCDEFGHIJKLMNOP\x22"]) [awsAccessKey] = [] := by
  constructor
  · intro root filePath size lines patterns m hm
    simp only [scanFile] at hm
    by_cases hsize : size > MAX_FILE_SIZE
    · rw [if_pos hsize] at hm
      simp at hm
    · rw [if_neg hsize] at hm
      simp only [List.mem_flatten, List.mem_map] at hm
      obtain ⟨lst, ⟨p, hp, rfl⟩, hmem⟩ := hm
      simp only [List.mem_filterMap] at hmem
      obtain ⟨⟨i, l⟩, hli, hsome⟩ := hmem
      by_cases htest : p.test l = true
      · simp only [htest, if_true] at hsome
        by_cases hsupp :
            (!strStartsWith (jsTrim l) "//" && !strStartsWith (jsTrim l) "#" &&
             !strStartsWith (jsTrim l) "*" && !strIncludes (jsTrim l) "example" &&
             !strIncludes (jsTrim l) "placeholder" && !strIncludes (jsTrim l) "TODO" &&
             !strIncludes (jsTrim l) "FIXME") = true
        · rw [if_pos hsupp] at hsome
          obtain rfl := Option.some.inj hsome
          refine ⟨l, ?_, ?_, p, hp, htest⟩
          · have := List.mem_enum_iff_getElem?.mp hli
            simpa using this
          · simp only [Bool.and_eq_true, Bool.not_eq_true'] at hsupp
            obtain ⟨⟨⟨⟨⟨⟨h1, h2⟩, h3⟩, h4⟩, h5⟩, h6⟩, h7⟩ := hsupp
            simp [suppressedLine, h1, h2, h3, h4, h5, h6, h7]
        · rw [if_neg hsupp] at hsome
          exact absurd hsome (by simp)
      · simp only [Bool.not_eq_true] at htest
        simp only [htest, Bool.false_eq_true, if_false] at hsome
        exact absurd hsome (by simp)
  · decide


/-- Witness for C8: the unsuppressed scenario line of `awsMatchA` is matched
by the AWS pattern and not flagged by any suppression marker. -/
theorem scanFile_suppresses_flagged_lines_witness :
    ∃ l, [awsLine][awsMatchA.line - 1]? = some l ∧ suppressedLine (jsTrim l) = false ∧
      ∃ p ∈ [awsAccessKey], p.test l = true :=
  scanFile_suppresses_flagged_lines.1 ["r"] ["r", "src", "a.ts"] 40 [awsLine] [awsAccessKey]
    awsMatchA (by decide)

/-- A directory chain for the secret scanner: `n` levels of `d` directories
above a directory holding `deep.ts` containing the scenario secret line. -/
def deepChainScan : Nat → FsNode
  | 0 => FsNode.dir 200 [("deep.ts", FsNode.file 40 [awsLine])]
  | n + 1 => FsNode.dir (100 + n) [("d", deepChainScan n)]

/-- A directory chain for the walker: `n` levels of `d` directories above a
directory holding `deep.test.ts`. -/
def deepChainWalk : Nat → FsNode
  | 0 => FsNode.dir 400 [("deep.test.ts", FsNode.file 4 ["x"])]
  | n + 1 => FsNode.dir (300 + n) [("d", deepChainWalk n)]

/-- C5 counterexample: the secret scanner's traversal has no depth bound —
`scanDirectory` on a chain of 13 nested directories (relative depth 12 below
the start) still scans the file at the bottom, where a 10-bounded truncating
traversal would have cut the subtree off. -/
theorem scanDirectory_no_depth_bound :
    scanDirectory ["r"] [] [awsAccessKey] ["r", "src"] (deepChainScan 12) =
      [{ file := ["src"] ++ List.replicate 12 "d" ++ ["deep.ts"], type := "AWS Access Key",
         line := 1, snippet := awsLine, isDefinition := false }] ∧
    (["src"] ++ List.replicate 12 "d" ++ ["deep.ts"]).length = 14 := by
  refine ⟨by decide, by decide⟩

/-- Every path `walkAndCollect` touches is at most `MAX_DEPTH + 1 - depth`
components below the starting directory: the depth guard at
`src/unnamed/part_010:107-110` truncates deeper subtrees. -/
theorem walkTouched_path_bound :
    ∀ (root : List String) (re : String → Bool) (dir : List String) (node : FsNode)
      (depth : Nat) (visited : List Nat),
      ∀ x ∈ (walkTouched root re dir node depth visited).1,
        x.1.length ≤ dir.length + (MAX_DEPTH + 1 - depth) := by
  intro root re
  refine fun dir node depth visited =>
    walkTouched.induct root re
      (fun dir node depth visited =>
        ∀ x ∈ (walkTouched root re dir node depth visited).1,
          x.1.length ≤ dir.length + (MAX_DEPTH + 1 - depth))
      (fun dir entries depth visited =>
        depth ≤ MAX_DEPTH →
        ∀ x ∈ (walkEntriesTouched root re dir entries depth visited).1,
          x.1.length ≤ dir.length + (MAX_DEPTH + 1 - depth))
      ?_ ?_ ?_ ?_ ?_ ?_ ?_ ?_ ?_ ?_ ?_ ?_ ?_ ?_ ?_ dir node depth visited
  · intro t d dep v h x hx
    rw [walkTouched.eq_def] at hx
    rw [if_pos h] at hx
    exact absurd hx (by simp)
  · intro d dep v h ino entries hc x hx
    have hm : ino ∈ v := by simpa using hc
    simp [walkTouched, h, hm] at hx
  · intro d dep v h ino entries hc hout x hx
    have hm : ino ∉ v := by simpa using hc
    simp [walkTouched, h, hm, hout] at hx
  · intro d dep v h ino entries hc visited1 hin ih x hx
    have hdep : dep ≤ MAX_DEPTH := Nat.le_of_not_lt h
    have hm : ino ∉ v := by simpa using hc
    rw [walkTouched.eq_def] at hx
    simp only [if_neg h, if_neg hc, if_false, if_neg hin, decide_eq_true_eq, List.mem_cons] at hx
    rcases hx with rfl | hx
    · exact Nat.le_add_right _ _
    · exact ih hdep x hx
  · intro d dep v h ino hc x hx
    have hm : ino ∈ v := by simpa using hc
    simp [walkTouched, h, hm] at hx
  · intro d dep v h ino hc hout x hx
    have hm : ino ∉ v := by simpa using hc
    simp [walkTouched, h, hm, hout] at hx
  · intro d dep v h ino hc hin x hx
    have hm : ino ∉ v := by simpa using hc
    simp [walkTouched, h, hm, hin] at hx
  · intro t d dep v h hne1 hne2 x hx
    cases t with
    | dir i es => exact absurd rfl (hne1 i es)
    | dirUnreadable i => exact absurd rfl (hne2 i)
    | file s l => simp [walkTouched, h] at hx
    | fileUnreadable => simp [walkTouched, h] at hx
    | symlink => simp [walkTouched, h] at hx
  · intro d dep v hdep x hx
    simp [walkEntriesTouched] at hx
  · intro d dep v name child rest hs ih hdep x hx
    rw [walkEntriesTouched] at hx
    simp only [hs, if_true] at hx
    exact ih hdep x hx
  · intro d dep v name child rest hs hdir hskip ih hdep x hx
    rw [walkEntriesTouched] at hx
    simp only [hs, Bool.false_eq_true, if_false, hdir, if_true, hskip] at hx
    exact ih hdep x hx
  · intro d dep v name child rest hs hdir hskip r1 ih1 ih2 hdep x hx
    rw [walkEntriesTouched] at hx
    simp only [hs, Bool.false_eq_true, if_false, hdir, if_true, hskip, List.mem_append] at hx
    rcases hx with hx | hx
    · have h1 := ih1 x hx
      simp only [List.length_append, List.length_singleton] at h1
      have hM : MAX_DEPTH = 10 := rfl
      rw [hM] at h1 hdep ⊢
      omega
    · exact ih2 hdep x hx
  · intro d dep v name child rest hs hdir hfile hre ih hdep x hx
    rw [walkEntriesTouched] at hx
    simp only [hs, Bool.false_eq_true, if_false, hdir, hfile, if_true, hre,
      List.mem_cons] at hx
    rcases hx with rfl | hx
    · simp only [List.length_append, List.length_singleton]
      have hM : MAX_DEPTH = 10 := rfl
      rw [hM] at hdep ⊢
      omega
    · exact ih hdep x hx
  · intro d dep v name child rest hs hdir hfile hre ih hdep x hx
    rw [walkEntriesTouched] at hx
    simp only [hs, Bool.false_eq_true, if_false, hdir, hfile, if_true, hre] at hx
    exact ih hdep x hx
  · intro d dep v name child rest hs hdir hfile ih hdep x hx
    rw [walkEntriesTouched] at hx
    simp only [hs, Bool.false_eq_true, if_false, hdir, hfile] at hx
    exact ih hdep x hx


/-- C5 amended: `walkAndCollect` terminates with recursion depth bounded by
the constant `MAX_DEPTH = 10`, truncating (with a warning) any deeper
subtree — a test file 11 directories below the start is collected at 10
nesting levels but not at 11 — while the secret scanner's `scanDirectory`
has no depth bound at all and scans a file at relative depth 13 (it
terminates only because symlinked entries are skipped and the directory
tree is finite). -/
theorem walker_depth_bound_scanner_unbounded :
    (∀ (root : List String) (re : String → Bool) (dir : List String) (node : FsNode)
        (depth : Nat) (visited : List Nat),
      ∀ x ∈ (walkTouched root re dir node depth visited).1,
        x.1.length ≤ dir.length + (MAX_DEPTH + 1 - depth)) ∧
    walkAndCollect ["r"] testFileRe ["r", "test"] (deepChainWalk 10) 0 [] =
      ([["test"] ++ List.replicate 10 "d" ++ ["deep.test.ts"]], []) ∧
    walkAndCollect ["r"] testFileRe ["r", "test"] (deepChainWalk 11) 0 [] = ([], []) ∧
    scanDirectory ["r"] [] [awsAccessKey] ["r", "src"] (deepChainScan 12) ≠ [] := by
  refine ⟨walkTouched_path_bound, by decide, by decide, by decide⟩

/-- Witness for C5's amended theorem: the walker touches the test file one
component below a two-component start, within the depth bound. -/
theorem walker_depth_bound_scanner_unbounded_witness :
    (["r", "test", "a.test.ts"], FsNode.file 4 ["x"]) ∈
      (walkTouched ["r"] testFileRe ["r", "test"]
        (FsNode.dir 7 [("a.test.ts", FsNode.file 4 ["x"])]) 0 []).1 ∧
    (["r", "test", "a.test.ts"] : List String).length ≤
      (["r", "test"] : List String).length + (MAX_DEPTH + 1 - 0) :=
  ⟨List.mem_cons_of_mem _ (List.mem_cons_self _ _),
   walker_depth_bound_scanner_unbounded.1 ["r"] testFileRe ["r", "test"]
     (FsNode.dir 7 [("a.test.ts", FsNode.file 4 ["x"])]) 0 []
     (["r", "test", "a.test.ts"], FsNode.file 4 ["x"])
     (List.mem_cons_of_mem _ (List.mem_cons_self _ _))⟩

/-- Appending components preserves the `isPrefixOf` containment check. -/
theorem isPrefixOf_append_right (root d l : List String) (h : root.isPrefixOf d = true) :
    root.isPrefixOf (d ++ l) = true := by
  rw [List.isPrefixOf_iff_prefix] at h ⊢
  exact h.trans (List.prefix_append d l)

/-- Every path the secret scanner's traversal touches passes the resolved
project-root prefix check, and no touched entry is flagged as a symlink. -/
theorem scanTouched_within_root (projectRoot : List String) (excl : List (List String)) :
    ∀ (dir : List String) (node : FsNode),
      ∀ x ∈ scanDirectoryTouched projectRoot excl dir node,
        projectRoot.isPrefixOf x.1 = true ∧ x.2.isSymbolicLink = false := by
  refine fun dir node => scanDirectoryTouched.induct projectRoot excl
    (fun dir node => ∀ x ∈ scanDirectoryTouched projectRoot excl dir node,
      projectRoot.isPrefixOf x.1 = true ∧ x.2.isSymbolicLink = false)
    (fun dir entries => ∀ x ∈ scanDirEntriesTouched projectRoot excl dir entries,
      projectRoot.isPrefixOf x.1 = true ∧ x.2.isSymbolicLink = false)
    ?_ ?_ ?_ ?_ ?_ dir node
  · intro t d hout x hx
    rw [scanDirectoryTouched.eq_def] at hx
    rw [if_pos hout] at hx
    exact absurd hx (by simp)
  · intro d hin ino entries ih x hx
    rw [scanDirectoryTouched.eq_def] at hx
    rw [if_neg hin] at hx
    simp only [List.mem_cons] at hx
    rcases hx with rfl | hx
    · exact ⟨by simpa using hin, rfl⟩
    · exact ih x hx
  · intro t d hin hnotdir x hx
    rw [scanDirectoryTouched.eq_def] at hx
    rw [if_neg hin] at hx
    cases t with
    | dir i es => exact absurd rfl (hnotdir i es)
    | dirUnreadable i => exact absurd hx (by simp)
    | file s l => exact absurd hx (by simp)
    | fileUnreadable => exact absurd hx (by simp)
    | symlink => exact absurd hx (by simp)
  · intro d x hx
    rw [scanDirEntriesTouched] at hx
    exact absurd hx (by simp)
  · intro d name child rest filePath ih1 ih2 x hx
    rw [scanDirEntriesTouched] at hx
    simp only [List.mem_append] at hx
    rcases hx with hx | hx
    · by_cases h1 : child.isSymbolicLink = true
      · rw [if_pos h1] at hx
        exact absurd hx (by simp)
      · rw [if_neg h1] at hx
        by_cases h2 : (!projectRoot.isPrefixOf (d ++ [name])) = true
        · rw [if_pos h2] at hx
          exact absurd hx (by simp)
        · rw [if_neg h2] at hx
          by_cases h3 : (excl.any fun e => e.isPrefixOf (d ++ [name])) = true
          · rw [if_pos h3] at hx
            exact absurd hx (by simp)
          · rw [if_neg h3] at hx
            by_cases h4 : child.isDirectory = true
            · rw [if_pos h4] at hx
              by_cases h5 : (!strStartsWith name "." && name != "node_modules") = true
              · rw [if_pos h5] at hx
                exact ih1 x hx
              · rw [if_neg h5] at hx
                exact absurd hx (by simp)
            · rw [if_neg h4] at hx
              by_cases h6 : hasCodeExt name = true
              · rw [if_pos h6] at hx
                simp only [List.mem_singleton] at hx
                subst hx
                exact ⟨by simpa using h2, by simpa using h1⟩
              · rw [if_neg h6] at hx
                exact absurd hx (by simp)
    · exact ih2 x hx


/-- Every path the walker touches passes the project-root prefix check, and
no touched entry is flagged as a symlink. -/
theorem walkTouched_within_root :
    ∀ (root : List String) (re : String → Bool) (dir : List String) (node : FsNode)
      (depth : Nat) (visited : List Nat),
      ∀ x ∈ (walkTouched root re dir node depth visited).1,
        root.isPrefixOf x.1 = true ∧ x.2.isSymbolicLink = false := by
  intro root re
  refine fun dir node depth visited =>
    walkTouched.induct root re
      (fun dir node depth visited =>
        ∀ x ∈ (walkTouched root re dir node depth visited).1,
          root.isPrefixOf x.1 = true ∧ x.2.isSymbolicLink = false)
      (fun dir entries depth visited =>
        root.isPrefixOf dir = true →
        ∀ x ∈ (walkEntriesTouched root re dir entries depth visited).1,
          root.isPrefixOf x.1 = true ∧ x.2.isSymbolicLink = false)
      ?_ ?_ ?_ ?_ ?_ ?_ ?_ ?_ ?_ ?_ ?_ ?_ ?_ ?_ ?_ dir node depth visited
  · intro t d dep v h x hx
    rw [walkTouched.eq_def] at hx
    rw [if_pos h] at hx
    exact absurd hx (by simp)
  · intro d dep v h ino entries hc x hx
    have hm : ino ∈ v := by simpa using hc
    simp [walkTouched, h, hm] at hx
  · intro d dep v h ino entries hc hout x hx
    have hm : ino ∉ v := by simpa using hc
    simp [walkTouched, h, hm, hout] at hx
  · intro d dep v h ino entries hc visited1 hin ih x hx
    have hpre : root.isPrefixOf d = true := by simpa using hin
    rw [walkTouched.eq_def] at hx
    simp only [if_neg h, if_neg hc, if_false, if_neg hin, decide_eq_true_eq,
      List.mem_cons] at hx
    rcases hx with rfl | hx
    · exact ⟨hpre, rfl⟩
    · exact ih hpre x hx
  · intro d dep v h ino hc x hx
    have hm : ino ∈ v := by simpa using hc
    simp [walkTouched, h, hm] at hx
  · intro d dep v h ino hc hout x hx
    have hm : ino ∉ v := by simpa using hc
    simp [walkTouched, h, hm, hout] at hx
  · intro d dep v h ino hc hin x hx
    have hm : ino ∉ v := by simpa using hc
    simp [walkTouched, h, hm, hin] at hx
  · intro t d dep v h hne1 hne2 x hx
    cases t with
    | dir i es => exact absurd rfl (hne1 i es)
    | dirUnreadable i => exact absurd rfl (hne2 i)
    | file s l => simp [walkTouched, h] at hx
    | fileUnreadable => simp [walkTouched, h] at hx
    | symlink => simp [walkTouched, h] at hx
  · intro d dep v hpre x hx
    simp [walkEntriesTouched] at hx
  · intro d dep v name child rest hs ih hpre x hx
    rw [walkEntriesTouched] at hx
    simp only [hs, if_true] at hx
    exact ih hpre x hx
  · intro d dep v name child rest hs hdir hskip ih hpre x hx
    rw [walkEntriesTouched] at hx
    simp only [hs, Bool.false_eq_true, if_false, hdir, if_true, hskip] at hx
    exact ih hpre x hx
  · intro d dep v name child rest hs hdir hskip r1 ih1 ih2 hpre x hx
    rw [walkEntriesTouched] at hx
    simp only [hs, Bool.false_eq_true, if_false, hdir, if_true, hskip,
      List.mem_append] at hx
    rcases hx with hx | hx
    · exact ih1 x hx
    · exact ih2 hpre x hx
  · intro d dep v name child rest hs hdir hfile hre ih hpre x hx
    rw [walkEntriesTouched] at hx
    simp only [hs, Bool.false_eq_true, if_false, hdir, hfile, if_true, hre,
      List.mem_cons] at hx
    rcases hx with rfl | hx
    · exact ⟨isPrefixOf_append_right root d [name] hpre, by simpa using hs⟩
    · exact ih hpre x hx
  · intro d dep v name child rest hs hdir hfile hre ih hpre x hx
    rw [walkEntriesTouched] at hx
    simp only [hs, Bool.false_eq_true, if_false, hdir, hfile, if_true, hre] at hx
    exact ih hpre x hx
  · intro d dep v name child rest hs hdir hfile ih hpre x hx
    rw [walkEntriesTouched] at hx
    simp only [hs, Bool.false_eq_true, if_false, hdir, hfile] at hx
    exact ih hpre x hx


/-- Every match `scanDirectory` collects comes from a file entry in its
touched set, scanned with `scanFile`. -/
theorem scanDirectory_matches_from_touched (projectRoot : List String)
    (excl : List (List String)) (patterns : List ScanPattern) :
    ∀ (dir : List String) (node : FsNode),
      ∀ m ∈ scanDirectory projectRoot excl patterns dir node,
        ∃ x ∈ scanDirectoryTouched projectRoot excl dir node,
          x.2.isFile = true ∧ m ∈ scanFile projectRoot x.1 x.2 patterns := by
  refine fun dir node => scanDirectory.induct projectRoot excl patterns
    (fun dir node => ∀ m ∈ scanDirectory projectRoot excl patterns dir node,
      ∃ x ∈ scanDirectoryTouched projectRoot excl dir node,
        x.2.isFile = true ∧ m ∈ scanFile projectRoot x.1 x.2 patterns)
    (fun dir entries => ∀ m ∈ scanDirEntries projectRoot excl patterns dir entries,
      ∃ x ∈ scanDirEntriesTouched projectRoot excl dir entries,
        x.2.isFile = true ∧ m ∈ scanFile projectRoot x.1 x.2 patterns)
    ?_ ?_ ?_ ?_ ?_ dir node
  · intro t d hout m hm
    rw [scanDirectory.eq_def] at hm
    rw [if_pos hout] at hm
    exact absurd hm (by simp)
  · intro d hin ino entries ih m hm
    rw [scanDirectory.eq_def] at hm
    rw [if_neg hin] at hm
    rw [scanDirectoryTouched.eq_def]
    rw [if_neg hin]
    obtain ⟨x, hxmem, hrest⟩ := ih m hm
    exact ⟨x, List.mem_cons_of_mem _ hxmem, hrest⟩
  · intro t d hin hnotdir m hm
    rw [scanDirectory.eq_def] at hm
    rw [if_neg hin] at hm
    cases t with
    | dir i es => exact absurd rfl (hnotdir i es)
    | dirUnreadable i => exact absurd hm (by simp)
    | file s l => exact absurd hm (by simp)
    | fileUnreadable => exact absurd hm (by simp)
    | symlink => exact absurd hm (by simp)
  · intro d m hm
    rw [scanDirEntries] at hm
    exact absurd hm (by simp)
  · intro d name child rest filePath ih1 ih2 m hm
    rw [scanDirEntries] at hm
    rw [scanDirEntriesTouched]
    simp only [List.mem_append] at hm
    rcases hm with hm | hm
    · by_cases h1 : child.isSymbolicLink = true
      · rw [if_pos h1] at hm
        exact absurd hm (by simp)
      · rw [if_neg h1] at hm
        rw [if_neg h1]
        by_cases h2 : (!projectRoot.isPrefixOf (d ++ [name])) = true
        · rw [if_pos h2] at hm
          exact absurd hm (by simp)
        · rw [if_neg h2] at hm
          rw [if_neg h2]
          by_cases h3 : (excl.any fun e => e.isPrefixOf (d ++ [name])) = true
          · rw [if_pos h3] at hm
            exact absurd hm (by simp)
          · rw [if_neg h3] at hm
            rw [if_neg h3]
            by_cases h4 : child.isDirectory = true
            · rw [if_pos h4] at hm
              rw [if_pos h4]
              by_cases h5 : (!strStartsWith name "." && name != "node_modules") = true
              · rw [if_pos h5] at hm
                rw [if_pos h5]
                obtain ⟨x, hxmem, hrest⟩ := ih1 m hm
                exact ⟨x, List.mem_append_left _ hxmem, hrest⟩
              · rw [if_neg h5] at hm
                exact absurd hm (by simp)
            · rw [if_neg h4] at hm
              rw [if_neg h4]
              by_cases h6 : hasCodeExt name = true
              · rw [if_pos h6] at hm
                rw [if_pos h6]
                refine ⟨(d ++ [name], child),
                  List.mem_append_left _ (List.mem_singleton.mpr rfl), ?_, hm⟩
                cases child with
                | file s l => rfl
                | fileUnreadable => rfl
                | dir i es => exact absurd rfl h4
                | dirUnreadable i => exact absurd rfl h4
                | symlink => exact absurd rfl h1
              · rw [if_neg h6] at hm
                exact absurd hm (by simp)
    · obtain ⟨x, hxmem, hrest⟩ := ih2 m hm
      exact ⟨x, List.mem_append_right _ hxmem, hrest⟩


/-- The walker's collected output is exactly the file entries of its touched
set, relativized to the root, in order (and the instrumented traversal leaves
the visited set exactly as the original does). -/
theorem walk_out_eq_touched :
    ∀ (root : List String) (re : String → Bool) (dir : List String) (node : FsNode)
      (depth : Nat) (visited : List Nat),
      (walkAndCollect root re dir node depth visited).1 =
        (walkTouched root re dir node depth visited).1.filterMap
          (fun x => if x.2.isFile then some (relativize root x.1) else none) ∧
      (walkAndCollect root re dir node depth visited).2 =
        (walkTouched root re dir node depth visited).2 := by
  intro root re
  refine fun dir node depth visited =>
    walkAndCollect.induct root re
      (fun dir node depth visited =>
        (walkAndCollect root re dir node depth visited).1 =
          (walkTouched root re dir node depth visited).1.filterMap
            (fun x => if x.2.isFile then some (relativize root x.1) else none) ∧
        (walkAndCollect root re dir node depth visited).2 =
          (walkTouched root re dir node depth visited).2)
      (fun dir entries depth visited =>
        (walkEntriesCollect root re dir entries depth visited).1 =
          (walkEntriesTouched root re dir entries depth visited).1.filterMap
            (fun x => if x.2.isFile then some (relativize root x.1) else none) ∧
        (walkEntriesCollect root re dir entries depth visited).2 =
          (walkEntriesTouched root re dir entries depth visited).2)
      ?_ ?_ ?_ ?_ ?_ ?_ ?_ ?_ ?_ ?_ ?_ ?_ ?_ ?_ ?_ dir node depth visited
  · intro t d dep v h
    rw [walkAndCollect.eq_def, walkTouched.eq_def]
    rw [if_pos h, if_pos h]
    exact ⟨rfl, rfl⟩
  · intro d dep v h ino entries hc
    rw [walkAndCollect.eq_def, walkTouched.eq_def]
    rw [if_neg h, if_neg h]
    simp only [if_pos hc]
    exact ⟨rfl, trivial⟩
  · intro d dep v h ino entries hc hout
    rw [walkAndCollect.eq_def, walkTouched.eq_def]
    rw [if_neg h, if_neg h]
    simp only [if_neg hc, if_pos hout]
    exact ⟨rfl, trivial⟩
  · intro d dep v h ino entries hc visited1 hin ih
    rw [walkAndCollect.eq_def, walkTouched.eq_def]
    rw [if_neg h, if_neg h]
    simp only [if_neg hc, if_neg hin]
    refine ⟨?_, ?_⟩
    · simp only [List.filterMap_cons, FsNode.isDirectory, FsNode.isFile, if_false]
      exact ih.1
    · rw [ih.2]
  · intro d dep v h ino hc
    rw [walkAndCollect.eq_def, walkTouched.eq_def]
    rw [if_neg h, if_neg h]
    simp only [if_pos hc]
    exact ⟨rfl, trivial⟩
  · intro d dep v h ino hc hout
    rw [walkAndCollect.eq_def, walkTouched.eq_def]
    rw [if_neg h, if_neg h]
    simp only [if_neg hc, if_pos hout]
    exact ⟨rfl, trivial⟩
  · intro d dep v h ino hc hin
    rw [walkAndCollect.eq_def, walkTouched.eq_def]
    rw [if_neg h, if_neg h]
    simp only [if_neg hc, if_neg hin]
    exact ⟨rfl, trivial⟩
  · intro t d dep v h hne1 hne2
    rw [walkAndCollect.eq_def, walkTouched.eq_def]
    rw [if_neg h, if_neg h]
    cases t with
    | dir i es => exact absurd rfl (hne1 i es)
    | dirUnreadable i => exact absurd rfl (hne2 i)
    | file s l => exact ⟨rfl, rfl⟩
    | fileUnreadable => exact ⟨rfl, rfl⟩
    | symlink => exact ⟨rfl, rfl⟩
  · intro d dep v
    exact ⟨rfl, rfl⟩
  · intro d dep v name child rest hs ih
    rw [walkEntriesCollect, walkEntriesTouched]
    simp only [hs, if_true]
    exact ih
  · intro d dep v name child rest hs hdir hskip ih
    rw [walkEntriesCollect, walkEntriesTouched]
    simp only [hs, Bool.false_eq_true, if_false, hdir, if_true, hskip]
    exact ih
  · intro d dep v name child rest hs hdir hskip r1 ih1 ih2
    rw [walkEntriesCollect, walkEntriesTouched]
    simp only [hs, Bool.false_eq_true, if_false, hdir, if_true, hskip]
    refine ⟨?_, ?_⟩
    · rw [List.filterMap_append]
      rw [ih1.1, ih1.2] at *
      rw [ih2.1]
    · rw [ih1.2] at *
      rw [ih2.2]
  · intro d dep v name child rest hs hdir hfile hre ih
    rw [walkEntriesCollect, walkEntriesTouched]
    simp only [hs, Bool.false_eq_true, if_false, hdir, hfile, if_true, hre]
    refine ⟨?_, ih.2⟩
    simp only [List.filterMap_cons, hfile, if_true]
    rw [ih.1]
  · intro d dep v name child rest hs hdir hfile hre ih
    rw [walkEntriesCollect, walkEntriesTouched]
    simp only [hs, Bool.false_eq_true, if_false, hdir, hfile, if_true, hre]
    exact ih
  · intro d dep v name child rest hs hdir hfile ih
    rw [walkEntriesCollect, walkEntriesTouched]
    simp only [hs, Bool.false_eq_true, if_false, hdir, hfile]
    exact ih


/-- C2: no emitted or scanned path lies outside the project root.  Every path
either traversal touches — each directory entered and each file read — passes
the resolved-root prefix check and is never a symlink-flagged entry; every
`SecretMatch` the scanner collects comes from such a touched file; and the
walker's emitted list is exactly its touched files relativized, so emitted
paths, too, come only from root-contained, non-symlink entries. -/
theorem traversals_stay_within_root :
    (∀ (projectRoot : List String) (excl : List (List String)) (dir : List String)
        (node : FsNode),
      ∀ x ∈ scanDirectoryTouched projectRoot excl dir node,
        projectRoot.isPrefixOf x.1 = true ∧ x.2.isSymbolicLink = false) ∧
    (∀ (projectRoot : List String) (excl : List (List String))
        (patterns : List ScanPattern) (dir : List String) (node : FsNode),
      ∀ m ∈ scanDirectory projectRoot excl patterns dir node,
        ∃ x ∈ scanDirectoryTouched projectRoot excl dir node,
          x.2.isFile = true ∧ m ∈ scanFile projectRoot x.1 x.2 patterns) ∧
    (∀ (root : List String) (re : String → Bool) (dir : List String) (node : FsNode)
        (depth : Nat) (visited : List Nat),
      ∀ x ∈ (walkTouched root re dir node depth visited).1,
        root.isPrefixOf x.1 = true ∧ x.2.isSymbolicLink = false) ∧
    (∀ (root : List String) (re : String → Bool) (dir : List String) (node : FsNode)
        (depth : Nat) (visited : List Nat),
      (walkAndCollect root re dir node depth visited).1 =
        (walkTouched root re dir node depth visited).1.filterMap
          (fun x => if x.2.isFile then some (relativize root x.1) else none)) :=
  ⟨fun pr excl => scanTouched_within_root pr excl,
   fun pr excl pats => scanDirectory_matches_from_touched pr excl pats,
   walkTouched_within_root,
   fun root re dir node depth visited =>
     (walk_out_eq_touched root re dir node depth visited).1⟩

/-- Witness for C2: the scanner's touched file `r/src/a.ts` is inside the
root `r` and is not a symlink. -/
theorem traversals_stay_within_root_witness :
    (["r"] : List String).isPrefixOf
        ((["r", "src", "a.ts"], FsNode.file 40 [awsLine]) : List String × FsNode).1 = true ∧
    ((["r", "src", "a.ts"], FsNode.file 40 [awsLine]) :
        List String × FsNode).2.isSymbolicLink = false :=
  traversals_stay_within_root.1 ["r"] [] ["r", "src"]
    (FsNode.dir 1 [("a.ts", FsNode.file 40 [awsLine])])
    (["r", "src", "a.ts"], FsNode.file 40 [awsLine])
    (List.mem_cons_of_mem _ (List.mem_cons_self _ _))

end SecurityReporter
